import Mathlib

/-!
Verification of the RAG core of the `notebookllm` repository.

The TypeScript source is shallowly embedded: pure functions become Lean
functions over `List Char` / `String` / `Nat` / `Rat`; floating-point
transcendental functions (`Math.sin`, `Math.sqrt`) become abstract function
parameters over an arbitrary linear ordered field; external I/O (HTTP fetch,
the Supabase datastore, the HuggingFace / Gemini model calls) becomes
explicit environment records describing each call's outcome.
-/

/-! ## 0. String helpers (JS string primitives used by the source) -/

/-- JS whitespace test restricted to the characters that occur in the
source's regexes and string literals (space, tab, carriage return, newline). -/
def isWsChar (c : Char) : Bool :=
  c = ' ' || c = '\t' || c = '\r' || c = '\n'

/-- JS `String.prototype.trim` on a character list. -/
def trimChars (l : List Char) : List Char :=
  ((l.dropWhile isWsChar).reverse.dropWhile isWsChar).reverse

/-- JS `String.prototype.trim`. -/
def trimStr (s : String) : String :=
  (trimChars s.data).asString

/-- JS `str.split("\n\n")`: split on leftmost non-overlapping occurrences of
the two-character separator `"\n\n"`. -/
def splitOnDoubleNl : List Char → List Char → List (List Char)
  | [], acc => [acc.reverse]
  | '\n' :: '\n' :: rest, acc => acc.reverse :: splitOnDoubleNl rest []
  | c :: rest, acc => splitOnDoubleNl rest (c :: acc)

/-- Position of the last `'\n'` in a character list (meaningful when one exists). -/
def lastNlIdx (l : List Char) : Nat :=
  l.length - 1 - (l.reverse.findIdx (· = '\n'))

/-- JS `text.split(/\n\s*\n/)`: a separator is a newline followed greedily by
whitespace that contains at least one further newline; the separator extends
to the last newline of that whitespace run. -/
def splitOnBlankLine : List Char → List Char → List (List Char)
  | [], acc => [acc.reverse]
  | '\n' :: rest, acc =>
      let run := rest.takeWhile isWsChar
      if '\n' ∈ run then
        acc.reverse :: splitOnBlankLine (rest.drop (lastNlIdx run + 1)) []
      else
        splitOnBlankLine rest ('\n' :: acc)
  | c :: rest, acc => splitOnBlankLine rest (c :: acc)
termination_by l _ => l.length
decreasing_by
  all_goals simp_all
  · have := List.length_drop (lastNlIdx (List.takeWhile isWsChar rest) + 1) rest
    omega

/-! ## 1. Data model: chunks and their metadata (`DocumentChunk` in
`lib/document-processor.ts`).  The open JS metadata bag is modelled as a
closed record of the keys the source actually writes, optional ones as
`Option`. -/

structure ChunkMeta where
  type : String
  section_ : String
  filename : Option String := none
  processingStatus : Option String := none
  errorMsg : Option String := none
  row : Option Nat := none
  sheet : Option String := none
  cellType : Option String := none
  cell : Option Nat := none
  chunkIndex : Option Nat := none
  deriving Repr, DecidableEq

structure DocumentChunk where
  content : String
  metadata : ChunkMeta
  deriving Repr, DecidableEq

/-! ## 2. Chunking Engine (`chunkText` in `lib/document-processor.ts`).

```ts
export function chunkText(text: string, maxLength = 1000, overlap = 200) {
  const chunks: string[] = []
  let start = 0
  while (start < text.length) {
    const end = Math.min(start + maxLength, text.length)
    chunks.push(text.slice(start, end))
    if (end === text.length) break
    start = end - overlap
  }
  return chunks.map((content, index) => ({ content,
    metadata: { type: 'text', section: `Chunk ${index + 1}` } }))
}
```

The JS loop terminates only when `overlap < maxLength`; the embedding takes
that inequality as an explicit argument and uses it for well-founded
recursion, mirroring the loop body exactly otherwise. -/

def chunkGo (text : List Char) (maxLength overlap : Nat)
    (hov : overlap < maxLength) (start : Nat) : List (List Char) :=
  if _h : start < text.length then
    let e := min (start + maxLength) text.length
    let c := (text.drop start).take (e - start)
    if he : e = text.length then [c]
    else c :: chunkGo text maxLength overlap hov (e - overlap)
  else []
termination_by text.length - start
decreasing_by
  simp only [e] at he ⊢
  omega

/-- Fuel-indexed variant of `chunkGo`, used for concrete evaluation: it is
structurally recursive, so the kernel can reduce it.  `chunkGo_eq_fuel` shows
it agrees with `chunkGo` whenever the fuel exceeds the remaining text. -/
def chunkGoFuel (text : List Char) (maxLength overlap : Nat) :
    Nat → Nat → List (List Char)
  | 0, _ => []
  | fuel + 1, start =>
    if start < text.length then
      let e := min (start + maxLength) text.length
      let c := (text.drop start).take (e - start)
      if e = text.length then [c]
      else c :: chunkGoFuel text maxLength overlap fuel (e - overlap)
    else []

/-- The list of raw windows produced by `chunkText`'s while-loop. -/
def chunkTextRaw (text : List Char) (maxLength overlap : Nat)
    (hov : overlap < maxLength) : List (List Char) :=
  chunkGo text maxLength overlap hov 0

/-- `chunkText` from `lib/document-processor.ts` (defaults `maxLength = 1000`,
`overlap = 200` are passed explicitly by callers of this embedding). -/
def chunkText (text : String) (maxLength overlap : Nat)
    (hov : overlap < maxLength) : List DocumentChunk :=
  (chunkTextRaw text.data maxLength overlap hov).mapIdx fun index content =>
    { content := content.asString
      metadata := { type := "text", section_ := s!"Chunk {index + 1}" } }

/-! ## 3. Extraction Dispatcher (`extractTextFromFile` and the per-format
extractors in `lib/document-processor.ts`).

External effects are abstracted into an environment record: the outcome of
the HTTP fetch, of `mammoth.extractRawText`, of `csv.parse`, of `XLSX.read`
and of `JSON.parse` on a notebook.  An extractor that lets an exception
escape is embedded as `Except String _`; `extractTextFromPDF`,
`extractTextFromPPTX` and `extractTextFromImage` catch everything (or do no
I/O) and so return a plain list. -/

instance {ε α : Type} [DecidableEq ε] [DecidableEq α] : DecidableEq (Except ε α) := fun a b =>
  match a, b with
  | .error e, .error f =>
    if h : e = f then .isTrue (congrArg Except.error h)
    else .isFalse (fun hc => h (by cases hc; rfl))
  | .ok x, .ok y =>
    if h : x = y then .isTrue (congrArg Except.ok h)
    else .isFalse (fun hc => h (by cases hc; rfl))
  | .error _, .ok _ => .isFalse (fun hc => Except.noConfusion hc)
  | .ok _, .error _ => .isFalse (fun hc => Except.noConfusion hc)

structure ExtractEnv where
  /-- `response.ok` of the fetch. -/
  fetchOk : Bool
  /-- `response.statusText` of the fetch. -/
  fetchStatusText : String
  /-- Outcome of `mammoth.extractRawText` (used by the PDF and DOCX paths):
  either the thrown error's message or the extracted raw text. -/
  mammoth : Except String String
  /-- `response.text()` (used by the HTML and plain-text paths). -/
  bodyText : String
  /-- Outcome of `csv.parse(text, { columns: true })`: the thrown error's
  message, or the records as key/value pair lists. -/
  csvRecords : Except String (List (List (String × String)))
  /-- Outcome of `XLSX.read` + `sheet_to_json` per sheet: the thrown error's
  message, or for each sheet its name and its rows of cell strings. -/
  xlsxSheets : Except String (List (String × List (List String)))
  /-- Outcome of `JSON.parse` on a notebook: the thrown error's message, or
  for each cell its `cell_type` and `source` lines. -/
  notebookCells : Except String (List (String × List String))

/-- `fetchFileContent`: throws when the response is not ok. -/
def fetchFileContent (env : ExtractEnv) : Except String Unit :=
  if env.fetchOk then .ok ()
  else .error ("Failed to fetch file: " ++ env.fetchStatusText)

/-- `fileUrl.split('/')` on character lists. -/
def splitOnSlash : List Char → List Char → List (List Char)
  | [], acc => [acc.reverse]
  | '/' :: rest, acc => acc.reverse :: splitOnSlash rest []
  | c :: rest, acc => splitOnSlash rest (c :: acc)

/-- `fileUrl.split('/').pop() || 'document'`. -/
def fileNameOf (fileUrl : String) : String :=
  match (splitOnSlash fileUrl.data []).getLast? with
  | some s => if s = [] then "document" else s.asString
  | none => "document"

def extractTextFromPDF (env : ExtractEnv) (fileName : String) :
    List DocumentChunk :=
  match (do let _ ← fetchFileContent env; env.mammoth : Except String String) with
  | .error e =>
      [{ content := "PDF file: " ++ fileName ++ " - Content extraction failed. This might be a scanned PDF that requires OCR (Optical Character Recognition) to extract text. Error: " ++ e
         metadata := { type := "pdf", section_ := "Document", errorMsg := some e,
                       filename := some fileName, processingStatus := some "failed" } }]
  | .ok text =>
      if trimChars text.data = [] then
        [{ content := "PDF file: " ++ fileName ++ " (No text content found - might be image-based PDF or scanned document)"
           metadata := { type := "pdf", section_ := "Document", filename := some fileName } }]
      else
        let chunks := (splitOnBlankLine text.data []).filter (fun c => !(trimChars c).isEmpty)
        if chunks = [] then
          [{ content := text
             metadata := { type := "pdf", section_ := "Document", filename := some fileName } }]
        else
          chunks.mapIdx fun index c =>
            { content := (trimChars c).asString
              metadata := { type := "pdf", section_ := s!"Section {index + 1}",
                            filename := some fileName, chunkIndex := some index } }

def extractTextFromDOCX (env : ExtractEnv) (fileName : String) :
    Except String (List DocumentChunk) := do
  let _ ← fetchFileContent env
  let text ← env.mammoth
  let paragraphs := (splitOnDoubleNl text.data []).filter (fun p => !(trimChars p).isEmpty)
  return paragraphs.mapIdx fun index p =>
    { content := p.asString
      metadata := { type := "docx", section_ := s!"Paragraph {index + 1}",
                    filename := some fileName } }

/-- Case-insensitive test that `pat` begins `l`. -/
def headMatchesCI (pat l : List Char) : Bool :=
  (pat.map Char.toLower).isPrefixOf (l.map Char.toLower)

/-- Remove `<tag …>…</tag>` blocks (case-insensitively), as the source's
`/<script[^>]*>[\s\S]*?<\/script>/gi` and `/<style[^>]*>[\s\S]*?<\/style>/gi`
replacements do; a block with no closing `>` or no closing tag is left as is,
matching the regexes' failure to match there. -/
def removeTagBlocks (openPat closePat : List Char) : List Char → List Char
  | [] => []
  | c :: rest =>
    if headMatchesCI openPat (c :: rest) then
      let afterOpen := (c :: rest).drop openPat.length
      match afterOpen.findIdx? (· = '>') with
      | none => c :: removeTagBlocks openPat closePat rest
      | some gtIdx =>
        let body := afterOpen.drop (gtIdx + 1)
        match (List.range body.length).find?
            (fun k => headMatchesCI closePat (body.drop k)) with
        | none => c :: removeTagBlocks openPat closePat rest
        | some k => removeTagBlocks openPat closePat ((body.drop k).drop closePat.length)
    else c :: removeTagBlocks openPat closePat rest
termination_by l => l.length
decreasing_by
  all_goals simp only [List.length_drop, List.length_cons]
  all_goals omega

/-- `.replace(/<[^>]*>/g, ' ')`: each complete `<…>` group becomes a space. -/
def removeAngleTags : List Char → List Char
  | [] => []
  | '<' :: rest =>
      match rest.findIdx? (· = '>') with
      | none => '<' :: removeAngleTags rest
      | some gtIdx => ' ' :: removeAngleTags (rest.drop (gtIdx + 1))
  | c :: rest => c :: removeAngleTags rest
termination_by l => l.length
decreasing_by
  all_goals simp only [List.length_drop, List.length_cons]
  all_goals omega

/-- `.replace(/\s+/g, ' ')`: collapse whitespace runs to a single space. -/
def collapseWs : List Char → List Char
  | [] => []
  | c :: rest =>
      if isWsChar c then ' ' :: collapseWs (rest.dropWhile isWsChar)
      else c :: collapseWs rest
termination_by l => l.length
decreasing_by
  all_goals simp only [List.length_cons]
  · have := (List.dropWhile_sublist (l := rest) isWsChar).length_le
    omega
  · omega

def extractTextFromHTML (env : ExtractEnv) (fileName : String) :
    Except String (List DocumentChunk) := do
  let _ ← fetchFileContent env
  let text := env.bodyText
  let textContent :=
    trimChars (collapseWs (removeAngleTags
      (removeTagBlocks "<style".data "</style>".data
        (removeTagBlocks "<script".data "</script>".data text.data))))
  let paragraphs := (splitOnBlankLine textContent []).filter (fun p => !(trimChars p).isEmpty)
  return paragraphs.mapIdx fun index p =>
    { content := p.asString
      metadata := { type := "html", section_ := s!"Section {index + 1}",
                    filename := some fileName } }

def extractTextFromCSV (env : ExtractEnv) (fileName : String) :
    Except String (List DocumentChunk) := do
  let _ ← fetchFileContent env
  let records ← env.csvRecords
  return records.mapIdx fun index record =>
    { content := String.intercalate ", " (record.map fun kv => kv.1 ++ ": " ++ kv.2)
      metadata := { type := "csv", section_ := s!"Row {index + 1}",
                    row := some (index + 1), filename := some fileName } }

def extractTextFromXLSX (env : ExtractEnv) (fileName : String) :
    Except String (List DocumentChunk) := do
  let _ ← fetchFileContent env
  let sheets ← env.xlsxSheets
  return sheets.flatMap fun sheet =>
    sheet.2.enum.filterMap fun row =>
      if row.2.length > 0 then
        some { content := String.intercalate ", " row.2
               metadata := { type := "xlsx",
                             section_ := s!"{sheet.1} Row {row.1 + 1}",
                             sheet := some sheet.1, row := some (row.1 + 1),
                             filename := some fileName } }
      else none

def extractTextFromPPTX (fileName : String) : List DocumentChunk :=
  [{ content := "PowerPoint presentation: " ++ fileName
     metadata := { type := "pptx", section_ := "Presentation",
                   filename := some fileName } }]

def extractTextFromNotebook (env : ExtractEnv) (fileName : String) :
    Except String (List DocumentChunk) := do
  let _ ← fetchFileContent env
  let cells ← env.notebookCells
  return cells.enum.filterMap fun cell =>
    if cell.2.2.length > 0 then
      some { content := String.join cell.2.2
             metadata := { type := "notebook", section_ := s!"Cell {cell.1 + 1}",
                           cellType := some cell.2.1, cell := some (cell.1 + 1),
                           filename := some fileName } }
    else none

def extractTextFromImage (fileName : String) : List DocumentChunk :=
  [{ content := "Image file: " ++ fileName
     metadata := { type := "image", section_ := "Image Content",
                   filename := some fileName } }]

def extractTextFromPlainText (env : ExtractEnv) (fileName : String) :
    Except String (List DocumentChunk) := do
  let _ ← fetchFileContent env
  let paragraphs := (splitOnDoubleNl env.bodyText.data []).filter
    (fun p => !(trimChars p).isEmpty)
  return paragraphs.mapIdx fun index p =>
    { content := p.asString
      metadata := { type := "text", section_ := s!"Paragraph {index + 1}",
                    filename := some fileName } }

def docxMime : String :=
  "application/vnd.openxmlformats-officedocument.wordprocessingml.document"

def xlsxMime : String :=
  "application/vnd.openxmlformats-officedocument.spreadsheetml.sheet"

def pptxMime : String :=
  "application/vnd.openxmlformats-officedocument.presentationml.presentation"

/-- The dispatcher `extractTextFromFile`: routes on the declared media type;
its `catch` logs and RE-THROWS a wrapped error, so extractor exceptions do
escape it. -/
def extractTextFromFile (env : ExtractEnv) (fileUrl fileType : String) :
    Except String (List DocumentChunk) :=
  let fileName := fileNameOf fileUrl
  let result : Except String (List DocumentChunk) :=
    if fileType = "application/pdf" then .ok (extractTextFromPDF env fileName)
    else if fileType = docxMime then extractTextFromDOCX env fileName
    else if fileType = "text/html" then extractTextFromHTML env fileName
    else if fileType = "text/csv" then extractTextFromCSV env fileName
    else if fileType = xlsxMime then extractTextFromXLSX env fileName
    else if fileType = pptxMime then .ok (extractTextFromPPTX fileName)
    else if fileType = "application/x-ipynb+json" then extractTextFromNotebook env fileName
    else if fileType = "image/jpeg" ∨ fileType = "image/png" then
      .ok (extractTextFromImage fileName)
    else extractTextFromPlainText env fileName
  match result with
  | .ok chunks => .ok chunks
  | .error e => .error ("Failed to extract text from " ++ fileName ++ ": " ++ e)

/-! ## 4. Embedding Service Adapter (`lib/embeddings.ts`).

`generateDeterministicEmbedding` works on IEEE doubles through `Math.sin`
and `Math.sqrt`; the embedding is parametric over an arbitrary linear
ordered field together with abstract `sin` and `sqrt` functions, and over
the input's character codes (`charCodeAt`). -/

/-- `Math.sin(char * 0.1) * 0.5` for character code `c`. -/
def sinContribution {α : Type} [Field α] (sin : α → α) (c : Nat) : α :=
  sin ((c : α) * (1 / 10)) * (1 / 2)

/-- The accumulation loop of `generateDeterministicEmbedding`:
starting from a zero vector of length 384, for the character with code `c`
at position `i`, add `sin(c * 0.1) * 0.5` at index `(c + i) % 384`. -/
def accumulateEmbedding {α : Type} [Field α] (sin : α → α)
    (codes : List Nat) : List α :=
  codes.enum.foldl
    (fun embedding p =>
      let index := (p.2 + p.1) % 384
      embedding.set index (embedding.getD index 0 + sinContribution sin p.2))
    (List.replicate 384 (0 : α))

/-- The normalization step shared verbatim by the source and the spec:
divide every component by `sqrt(Σ vᵢ²)` when that magnitude is positive,
otherwise leave the vector unchanged. -/
def l2Normalize {α : Type} [Field α] [LinearOrder α] (sqrt : α → α)
    (v : List α) : List α :=
  let magnitude := sqrt (v.foldl (fun sum val => sum + val * val) 0)
  if 0 < magnitude then v.map (· / magnitude) else v

/-- `generateDeterministicEmbedding` from `lib/embeddings.ts`. -/
def generateDeterministicEmbedding {α : Type} [Field α] [LinearOrder α]
    (sin sqrt : α → α) (codes : List Nat) : List α :=
  l2Normalize sqrt (accumulateEmbedding sin codes)

/-- The spec's reference definition of the fallback embedding, rendered
entrywise: component `j` is the sum of the contributions `sin(c * 0.1) * 0.5`
of exactly those characters whose target index `(c + i) mod 384` is `j`,
and the vector is then L2-normalized (left all-zero when the norm is 0). -/
def specDeterministicEmbedding {α : Type} [Field α] [LinearOrder α]
    (sin sqrt : α → α) (codes : List Nat) : List α :=
  l2Normalize sqrt ((List.range 384).map fun j =>
    ((codes.enum.filter (fun p => (p.2 + p.1) % 384 = j)).map
      (fun p => sinContribution sin p.2)).sum)

/-! ## 5. Retry policy (`retryWithBackoff`, duplicated in `lib/embeddings.ts`
(`error.httpResponse?.status`) and in the Gemini module (`error.status`); both
loop bodies are identical, so one embedding covers both).  The wrapped call's
outcome on each attempt and the `Math.random()` jitter are environment
functions; the embedding returns the final outcome together with how many
times the call ran and which delays were slept. -/

structure UpstreamErr where
  /-- The error's status classifier (`error.status` /
  `error.httpResponse?.status`); `none` when absent. -/
  status : Option Nat
  deriving Repr, DecidableEq

inductive RetryErr where
  /-- The caught error rethrown to the caller. -/
  | upstream (e : UpstreamErr)
  /-- The trailing `throw new Error('Max retries exceeded')`, reachable only
  when the loop body never runs (`maxRetries = 0`). -/
  | exhaustedLoop
  deriving Repr, DecidableEq

/-- `error.httpResponse?.status === 503 || 429 || 500` (and the `error.status`
twin in the Gemini module). -/
def isRetryableStatus (e : UpstreamErr) : Bool :=
  e.status = some 503 || e.status = some 429 || e.status = some 500

structure RetryTrace (α : Type) where
  result : Except RetryErr α
  calls : Nat
  delays : List ℚ

/-- The `for (let i = 0; i < maxRetries; i++)` loop of `retryWithBackoff`,
indexed by the number of remaining iterations (`remaining = maxRetries - i`). -/
def retryGo {α : Type} (fn : Nat → Except UpstreamErr α) (jitter : Nat → ℚ)
    (baseDelay : ℚ) : Nat → Nat → RetryTrace α
  | 0, _ => ⟨.error .exhaustedLoop, 0, []⟩
  | remaining + 1, i =>
    match fn i with
    | .ok a => ⟨.ok a, 1, []⟩
    | .error e =>
      if remaining = 0 then ⟨.error (.upstream e), 1, []⟩
      else if isRetryableStatus e then
        let d := baseDelay * 2 ^ i + jitter i
        let rest := retryGo fn jitter baseDelay remaining (i + 1)
        ⟨rest.result, rest.calls + 1, d :: rest.delays⟩
      else ⟨.error (.upstream e), 1, []⟩

/-- `retryWithBackoff(fn, maxRetries = 3, baseDelay = 1000)`. -/
def retryWithBackoff {α : Type} (fn : Nat → Except UpstreamErr α)
    (jitter : Nat → ℚ) (maxRetries : Nat) (baseDelay : ℚ) : RetryTrace α :=
  retryGo fn jitter baseDelay maxRetries 0

/-! ## 6. Query Decomposition Orchestrator (`decomposeQuery` in the Gemini
module).  The model call's outcome is an environment value; `JSON.parse` is
an abstract parser that either fails, returns a non-array value, or returns
an array of strings — exactly the three cases the source distinguishes via
its `catch` and `Array.isArray` check. -/

inductive JsonVal where
  | arr (elems : List String)
  | notArr
  deriving Repr, DecidableEq

/-- Drop `pat` from the front of `l` when it is a prefix of `l`. -/
def dropPre (pat l : List Char) : List Char :=
  if pat.isPrefixOf l then l.drop pat.length else l

/-- Drop `pat` from the back of `l` when it is a suffix of `l`. -/
def dropSuf (pat l : List Char) : List Char :=
  if pat.isSuffixOf l then l.take (l.length - pat.length) else l

/-- `.replace(/^```json\n|\n```$/g, '')`: remove a leading ```` ```json ````
fence line and a trailing ```` ``` ```` fence. -/
def stripCodeFence (s : String) : String :=
  (dropSuf "\n```".data (dropPre "```json\n".data s.data)).asString

/-- `decomposeQuery(query)`; `upstream` is `result.response.text()` or the
error thrown anywhere in the `try` block, `parseJson` is `JSON.parse`
combined with the `Array.isArray` test. -/
def decomposeQuery (query : String) (upstream : Except UpstreamErr String)
    (parseJson : String → Option JsonVal) : List String :=
  match upstream with
  | .error _ => [query]
  | .ok t =>
    let responseText := trimStr t
    let cleanedResponseText := trimStr (stripCodeFence responseText)
    let decomposedQueries : List String :=
      match parseJson cleanedResponseText with
      | some (.arr xs) => xs
      | some .notArr => [query]
      | none => [query]
    if decomposedQueries = [] then [query] else decomposedQueries

/-! ## 7. Answer Synthesis Service (`generateChatResponse` in the Gemini
module). -/

structure ChatMsg where
  role : String
  content : String

structure ChatCtxChunk where
  content : String
  metadata : Nat
  similarity : ℚ

structure ChatContext where
  documentChunks : List ChatCtxChunk
  conversationHistory : List ChatMsg

def chatFallback503 : String :=
  "I\x27m sorry, but the AI service is currently experiencing high traffic. Please try again in a few moments. In the meantime, I can see you\x27re asking about your documents - could you try rephrasing your question or asking about a specific aspect?"

def chatFallback429 : String :=
  "I\x27m receiving too many requests right now. Please wait a moment and try again."

def chatFallback400 : String :=
  "I encountered an issue processing your request. Could you please rephrase your question or make it more specific?"

def chatFallbackGeneric : String :=
  "I\x27m experiencing technical difficulties right now. Please try again in a few minutes. If the problem persists, the AI service might be temporarily unavailable."

/-- `generateChatResponse(message, context)`; `upstream` is the text produced
by the retried `model.generateContent` call, or the error that escaped the
`try` block (retry exhaustion or a non-retryable error). -/
def generateChatResponse (message : String) (context : ChatContext)
    (upstream : Except UpstreamErr String) : String :=
  match upstream with
  | .ok text => text
  | .error error =>
    if error.status = some 503 then chatFallback503
    else if error.status = some 429 then chatFallback429
    else if error.status = some 400 then chatFallback400
    else chatFallbackGeneric

/-! ## 8. Hybrid search SQL function (`search_documents` in the migration
that adds keyword search).  The rows of `document_embeddings` joined with
their parent `documents` row are a list of records; `de.embedding <=>
query_embedding` is abstracted as a per-row distance for the fixed query
embedding; `order by` is a stable merge sort (SQL leaves tie order
unspecified). -/

structure StoredChunk where
  id : Nat
  documentId : Nat
  /-- `documents.user_id` of the parent row reached through the join. -/
  userId : Nat
  content : String
  /-- `metadata` is opaque to the query; an abstract handle. -/
  metadata : Nat
  /-- `de.embedding <=> query_embedding` for the fixed query embedding. -/
  queryDist : ℚ
  deriving Repr, DecidableEq

structure SearchRow where
  id : Nat
  documentId : Nat
  content : String
  metadata : Nat
  similarity : ℚ
  deriving Repr, DecidableEq

/-- `content ilike '%' || keyword_query || '%'`: case-insensitive substring. -/
def ilikeContains (content pat : String) : Bool :=
  decide ((pat.data.map Char.toLower) <:+: (content.data.map Char.toLower))

/-- The `vector_search` CTE: the caller's rows whose similarity
`1 - dist` is strictly above the threshold, ordered by distance ascending,
capped at `match_count`. -/
def vectorSearch (db : List StoredChunk) (userId : Nat)
    (matchThreshold : ℚ) (matchCount : Nat) : List SearchRow :=
  (((db.filter fun de =>
      decide (de.userId = userId) && decide (matchThreshold < 1 - de.queryDist)).mergeSort
    fun a b => decide (a.queryDist ≤ b.queryDist)).take matchCount).map
    fun de => ⟨de.id, de.documentId, de.content, de.metadata, 1 - de.queryDist⟩

/-- The `keyword_search` CTE: the caller's rows whose content contains the
keyword (non-null, non-empty) case-insensitively, each with the fixed
similarity 0.7, capped at `match_count`, in stored order (no `order by`). -/
def keywordSearch (db : List StoredChunk) (userId : Nat) (matchCount : Nat)
    (keywordQuery : Option String) : List SearchRow :=
  ((db.filter fun de =>
      decide (de.userId = userId) &&
      (match keywordQuery with
       | none => false
       | some k => decide (k ≠ "") && ilikeContains de.content k)).take matchCount).map
    fun de => ⟨de.id, de.documentId, de.content, de.metadata, (7 : ℚ) / 10⟩

/-- The body of `search_documents`: `union` of the two CTEs (SQL `union`
removes only rows identical in all five selected columns), ordered by
similarity descending, truncated to `match_count`. -/
def search_documents (db : List StoredChunk) (userId : Nat)
    (matchThreshold : ℚ) (matchCount : Nat) (keywordQuery : Option String) :
    List SearchRow :=
  (((vectorSearch db userId matchThreshold matchCount ++
      keywordSearch db userId matchCount keywordQuery).dedup).mergeSort
    fun a b => decide (b.similarity ≤ a.similarity)).take matchCount

/-- The spec's reading of the merge: union the two sets **by chunk
identity**, keeping the higher similarity when a chunk is in both, then sort
descending and truncate.  Written from the spec's words, to be compared with
`search_documents`. -/
def specHybridMerge (db : List StoredChunk) (userId : Nat)
    (matchThreshold : ℚ) (matchCount : Nat) (keywordQuery : Option String) :
    List SearchRow :=
  let rows := vectorSearch db userId matchThreshold matchCount ++
    keywordSearch db userId matchCount keywordQuery
  let merged := rows.foldl
    (fun acc r =>
      if acc.any (fun x => x.id == r.id) then
        acc.map (fun x =>
          if x.id == r.id then { x with similarity := max x.similarity r.similarity }
          else x)
      else acc ++ [r])
    []
  ((merged.mergeSort fun a b => decide (b.similarity ≤ a.similarity)).take matchCount)

/-! ## 9. Chat route retrieval merge (`POST` in `app/api/chat/route.ts`):
per-sub-query retrieval results are concatenated, then deduplicated with
`filter((doc, index, self) => index === self.findIndex(d =>
d.document_id === doc.document_id && d.content === doc.content))`. -/

def docKeyEq (a b : SearchRow) : Bool :=
  decide (a.documentId = b.documentId) && decide (a.content = b.content)

/-- The route's duplicate-removal filter: keep the element at `index` exactly
when `index` is the first position whose element has the same
`(document_id, content)` pair. -/
def dedupByDocIdContent (l : List SearchRow) : List SearchRow :=
  (l.enum.filter fun p => l.findIdx (fun d => docKeyEq d p.2) == p.1).map Prod.snd

/-- The retrieval phase of the chat route: search per decomposed sub-query,
concatenate, deduplicate by `(document_id, content)`. -/
def chatRetrieveContext (decomposedQueries : List String)
    (searchFn : String → List SearchRow) : List SearchRow :=
  dedupByDocIdContent (decomposedQueries.flatMap searchFn)

/-! ## 10. Retrieval adapter (`searchSimilarDocuments` in
`lib/embeddings.ts`).  The three datastore interactions (preliminary
per-user check, the `search_documents_hybrid` RPC, and the catch-path
recent-chunks query) are environment outcomes. -/

structure EmbeddingRow where
  id : Nat
  documentId : Nat
  content : String
  metadata : Nat
  /-- `documents.created_at` of the parent document. -/
  docCreatedAt : Nat
  deriving Repr, DecidableEq

inductive RpcOutcome where
  /-- The RPC resolved with a non-null `error`. -/
  | rpcError
  /-- The RPC resolved with `data` (a null `data` is the empty list). -/
  | rpcData (rows : List SearchRow)

structure SearchEnv where
  /-- The caller's `document_embeddings` rows, in storage order (the
  preliminary check has no `order by`). -/
  userRows : List EmbeddingRow
  /-- `checkError`: the preliminary per-user select failed. -/
  checkError : Bool
  /-- Outcome of `rpc("search_documents_hybrid", …)`. -/
  rpc : RpcOutcome
  /-- Some awaited step inside the `try` block threw. -/
  tryThrows : Bool
  /-- `fallbackError`: the catch-path recent-chunks select failed. -/
  recentError : Bool

/-- Mock-similarity projection used by both fallbacks: similarity 0.5. -/
def mockRow (r : EmbeddingRow) : SearchRow :=
  ⟨r.id, r.documentId, r.content, r.metadata, (1 : ℚ) / 2⟩

/-- `searchSimilarDocuments(query, userId, limit, keyword?)`.  The RPC-error
branch returns the preliminary check's rows (`.limit(5)`, storage order); the
empty-data branch does the same when the user has rows; the catch path
re-queries up to `limit` rows ordered by `documents.created_at` descending. -/
def searchSimilarDocuments (env : SearchEnv) (limit : Nat) : List SearchRow :=
  if env.tryThrows then
    if env.recentError then []
    else
      (((env.userRows.mergeSort fun a b =>
          decide (b.docCreatedAt ≤ a.docCreatedAt)).take limit).map mockRow)
  else
    let userEmbeddings : Option (List EmbeddingRow) :=
      if env.checkError then none else some (env.userRows.take 5)
    match env.rpc with
    | .rpcError =>
      match userEmbeddings with
      | some rows => rows.map mockRow
      | none => []
    | .rpcData data =>
      match userEmbeddings with
      | some rows =>
        if data.isEmpty && !rows.isEmpty then rows.map mockRow else data
      | none => data

/-- Concrete one-chunk store for the hybrid-search counterexample: the
chunk belongs to user 7, contains the keyword `beta`, and has vector
distance 1/10 (similarity 9/10) to the query embedding. -/
def c2db : List StoredChunk := [⟨1, 10, 7, "alpha beta", 0, (1 : ℚ) / 10⟩]

/-- `ExtractEnv` in which `mammoth.extractRawText` throws: a corrupt
DOCX/PDF body behind a successful fetch. -/
def envCorrupt : ExtractEnv :=
  { fetchOk := true, fetchStatusText := "", mammoth := .error "corrupt docx",
    bodyText := "", csvRecords := .ok [], xlsxSheets := .ok [], notebookCells := .ok [] }

/-- Six stored rows for user scope, in storage order oldest-first: ids 1..6,
`documents.created_at` 1..6. -/
def c10rows : List EmbeddingRow :=
  [⟨1, 1, "", 0, 1⟩, ⟨2, 2, "", 0, 2⟩, ⟨3, 3, "", 0, 3⟩,
   ⟨4, 4, "", 0, 4⟩, ⟨5, 5, "", 0, 5⟩, ⟨6, 6, "", 0, 6⟩]

def c10env : SearchEnv :=
  { userRows := c10rows, checkError := false, rpc := .rpcError,
    tryThrows := false, recentError := false }

/-! ## Theorems.  First the Chunking Engine (claims C3 and C9). -/

lemma chunkGo_eq_fuel (text : List Char) (maxLength overlap : Nat)
    (hov : overlap < maxLength) :
    ∀ fuel start, text.length - start < fuel →
      chunkGoFuel text maxLength overlap fuel start =
        chunkGo text maxLength overlap hov start := by
  intro fuel
  induction fuel with
  | zero => omega
  | succ n ih =>
    intro start hfuel
    rw [chunkGo, chunkGoFuel]
    by_cases h1 : start < text.length
    · simp only [h1, if_true, dif_pos]
      by_cases h2 : min (start + maxLength) text.length = text.length
      · simp [h2]
      · simp only [h2, if_false, dif_neg, not_false_iff]
        rw [ih]
        omega
    · simp [h1]


lemma slice_take (text : List Char) (start maxLength : Nat) :
    (text.drop start).take (min (start + maxLength) text.length - start) =
      (text.drop start).take maxLength := by
  rcases le_or_lt (start + maxLength) text.length with h | h
  · have he : min (start + maxLength) text.length - start = maxLength := by omega
    rw [he]
  · have he : min (start + maxLength) text.length - start = text.length - start := by
      omega
    rw [he, show text.length - start = (text.drop start).length by simp,
      List.take_length, List.take_of_length_le]
    simp
    omega

/-- Clean unfolding of the loop body: emit the window at `start` and, when
that window does not reach the end, continue at `start + (maxLength -
overlap)`. -/
lemma chunkGo_unfold (text : List Char) (maxLength overlap : Nat)
    (hov : overlap < maxLength) (start : Nat) (h : start < text.length) :
    chunkGo text maxLength overlap hov start =
      (text.drop start).take maxLength ::
        (if start + maxLength < text.length then
          chunkGo text maxLength overlap hov (start + (maxLength - overlap))
        else []) := by
  rw [chunkGo, dif_pos h]
  rcases lt_or_le (start + maxLength) text.length with h2 | h2
  · have hne : min (start + maxLength) text.length ≠ text.length := by omega
    rw [dif_neg hne, if_pos h2, slice_take]
    have harg : min (start + maxLength) text.length - overlap =
        start + (maxLength - overlap) := by omega
    rw [harg]
  · have heq : min (start + maxLength) text.length = text.length := by omega
    rw [dif_pos heq, if_neg (by omega), slice_take]

/-- Window `k` (when it exists) starts at `start + k * (maxLength - overlap)`
and is the `maxLength`-character slice there, under the side condition that
all earlier windows stopped short of the end. -/
lemma chunkGo_get? (text : List Char) (maxLength overlap : Nat)
    (hov : overlap < maxLength) :
    ∀ k start, start < text.length →
      (∀ j, j < k → start + j * (maxLength - overlap) + maxLength < text.length) →
      (chunkGo text maxLength overlap hov start)[k]? =
        some ((text.drop (start + k * (maxLength - overlap))).take maxLength) := by
  intro k
  induction k with
  | zero =>
    intro start h _
    rw [chunkGo_unfold text maxLength overlap hov start h]
    simp
  | succ n ih =>
    intro start h hall
    have h0 : start + maxLength < text.length := by
      have := hall 0 (by omega)
      simpa using this
    rw [chunkGo_unfold text maxLength overlap hov start h, if_pos h0]
    rw [List.getElem?_cons_succ]
    rw [ih (start + (maxLength - overlap)) (by omega)
      (fun j hj => by
        have := hall (j + 1) (by omega)
        have harith : start + (j + 1) * (maxLength - overlap) =
            start + (maxLength - overlap) + j * (maxLength - overlap) := by
          rw [Nat.succ_mul]; omega
        omega)]
    have harith : start + (maxLength - overlap) + n * (maxLength - overlap) =
        start + (n + 1) * (maxLength - overlap) := by
      rw [Nat.succ_mul]; omega
    rw [harith]

/-- Conversely, the existence of window `k + 1` forces window `k` to have
stopped short of the end of the text. -/
lemma chunkGo_succ_exists (text : List Char) (maxLength overlap : Nat)
    (hov : overlap < maxLength) :
    ∀ k start, (chunkGo text maxLength overlap hov start)[k + 1]? ≠ none →
      start + k * (maxLength - overlap) + maxLength < text.length := by
  intro k
  induction k with
  | zero =>
    intro start hne
    by_cases h : start < text.length
    · rw [chunkGo_unfold text maxLength overlap hov start h] at hne
      by_cases h2 : start + maxLength < text.length
      · simpa using h2
      · rw [if_neg h2] at hne
        simp at hne
    · rw [chunkGo, dif_neg h] at hne
      simp at hne
  | succ n ih =>
    intro start hne
    by_cases h : start < text.length
    · rw [chunkGo_unfold text maxLength overlap hov start h] at hne
      by_cases h2 : start + maxLength < text.length
      · rw [if_pos h2, List.getElem?_cons_succ] at hne
        have := ih (start + (maxLength - overlap)) hne
        have harith : start + (maxLength - overlap) + n * (maxLength - overlap) =
            start + (n + 1) * (maxLength - overlap) := by
          rw [Nat.succ_mul]; omega
        omega
      · rw [if_neg h2] at hne
        simp at hne
    · rw [chunkGo, dif_neg h] at hne
      simp at hne

/-- Every position from `start` to the end of the text lies inside at least
one emitted window. -/
lemma chunkGo_covers (text : List Char) (maxLength overlap : Nat)
    (hov : overlap < maxLength) :
    ∀ fuel start i, text.length - start < fuel → start ≤ i →
      i < text.length →
      ∃ k w, (chunkGo text maxLength overlap hov start)[k]? = some w ∧
        start + k * (maxLength - overlap) ≤ i ∧
        i < start + k * (maxLength - overlap) + w.length := by
  intro fuel
  induction fuel with
  | zero => omega
  | succ n ih =>
    intro start i hfuel hsi hil
    have h : start < text.length := by omega
    rw [chunkGo_unfold text maxLength overlap hov start h]
    rcases lt_or_le i (start + maxLength) with hi | hi
    · refine ⟨0, (text.drop start).take maxLength, by simp, by simp [hsi], ?_⟩
      simp only [Nat.zero_mul, Nat.add_zero, List.length_take, List.length_drop]
      omega
    · have h2 : start + maxLength < text.length := by omega
      rw [if_pos h2]
      obtain ⟨k, w, hw, hlo, hhi⟩ :=
        ih (start + (maxLength - overlap)) i (by omega) (by omega) hil
      refine ⟨k + 1, w, ?_, ?_, ?_⟩
      · rw [List.getElem?_cons_succ]; exact hw
      · have harith : start + (k + 1) * (maxLength - overlap) =
            start + (maxLength - overlap) + k * (maxLength - overlap) := by
          rw [Nat.succ_mul]; omega
        omega
      · have harith : start + (k + 1) * (maxLength - overlap) =
            start + (maxLength - overlap) + k * (maxLength - overlap) := by
          rw [Nat.succ_mul]; omega
        omega

lemma asString_length (l : List Char) : (l.asString).length = l.length := rfl

/-- If window `k` exists it is exactly the `maxLength`-slice starting at
`k * (maxLength - overlap)`. -/
lemma chunkTextRaw_get? (text : List Char) (maxLength overlap : Nat)
    (hov : overlap < maxLength) (k : Nat)
    (hk : (chunkTextRaw text maxLength overlap hov)[k]? ≠ none) :
    (chunkTextRaw text maxLength overlap hov)[k]? =
      some ((text.drop (k * (maxLength - overlap))).take maxLength) := by
  have hlen : k < (chunkTextRaw text maxLength overlap hov).length := by
    by_contra hno
    exact hk (List.getElem?_eq_none (by omega))
  have htextpos : 0 < text.length := by
    by_contra hno
    have : chunkTextRaw text maxLength overlap hov = [] := by
      rw [chunkTextRaw, chunkGo, dif_neg (by omega)]
    rw [this] at hlen
    simp at hlen
  have hall : ∀ j, j < k → 0 + j * (maxLength - overlap) + maxLength < text.length := by
    intro j hj
    have hj1 : (chunkTextRaw text maxLength overlap hov)[j + 1]? ≠ none := by
      intro hnone
      rw [List.getElem?_eq_none_iff] at hnone
      omega
    have := chunkGo_succ_exists text maxLength overlap hov j 0 hj1
    omega
  have := chunkGo_get? text maxLength overlap hov k 0 htextpos hall
  rw [chunkTextRaw]
  simpa using this

/-- Any window except the last has exactly `maxLength` characters; the last
one ends at the end of the text. -/
lemma chunkTextRaw_window_sizes (text : List Char) (maxLength overlap : Nat)
    (hov : overlap < maxLength) (k : Nat) (w : List Char)
    (hw : (chunkTextRaw text maxLength overlap hov)[k]? = some w) :
    (¬ (chunkTextRaw text maxLength overlap hov)[k + 1]? = none →
      w.length = maxLength) ∧
    ((chunkTextRaw text maxLength overlap hov)[k + 1]? = none →
      k * (maxLength - overlap) + w.length = text.length) := by
  have hne : (chunkTextRaw text maxLength overlap hov)[k]? ≠ none := by
    rw [hw]; simp
  have hsome := chunkTextRaw_get? text maxLength overlap hov k hne
  rw [hw] at hsome
  have hwval : w = (text.drop (k * (maxLength - overlap))).take maxLength := by
    exact (Option.some.injEq _ _).mp hsome.symm |>.symm
  have hposle : k * (maxLength - overlap) ≤ text.length := by
    rcases Nat.eq_zero_or_pos k with hk0 | hkpos
    · subst hk0; simp
    · have hk1 : (chunkTextRaw text maxLength overlap hov)[(k - 1) + 1]? ≠ none := by
        rw [show k - 1 + 1 = k by omega, hw]; simp
      have := chunkGo_succ_exists text maxLength overlap hov (k - 1) 0 hk1
      have harith : k * (maxLength - overlap) =
          (k - 1) * (maxLength - overlap) + (maxLength - overlap) := by
        conv_lhs => rw [show k = (k - 1) + 1 by omega]
        rw [Nat.succ_mul]
      omega
  constructor
  · intro hnext
    have := chunkGo_succ_exists text maxLength overlap hov k 0 (by
      rw [chunkTextRaw] at hnext
      simpa using hnext)
    rw [hwval]
    simp only [List.length_take, List.length_drop]
    omega
  · intro hnone
    have hnotlt : ¬ (k * (maxLength - overlap) + maxLength < text.length) := by
      intro hlt
      have htextpos : 0 < text.length := by omega
      have hall : ∀ j, j < k + 1 →
          0 + j * (maxLength - overlap) + maxLength < text.length := by
        intro j hj
        rcases Nat.lt_or_ge j k with hjk | hjk
        · have hj1 : (chunkTextRaw text maxLength overlap hov)[j + 1]? ≠ none := by
            intro hno
            rw [List.getElem?_eq_none_iff] at hno
            have : k < (chunkTextRaw text maxLength overlap hov).length := by
              by_contra hc
              rw [List.getElem?_eq_none (by omega)] at hw
              exact Option.noConfusion hw
            omega
          have := chunkGo_succ_exists text maxLength overlap hov j 0 hj1
          omega
        · have hjeq : j = k := by omega
          subst hjeq
          omega
      have := chunkGo_get? text maxLength overlap hov (k + 1) 0 htextpos hall
      rw [chunkTextRaw] at hnone
      rw [Nat.zero_add] at this
      rw [hnone] at this
      exact Option.noConfusion this
    rw [hwval]
    simp only [List.length_take, List.length_drop]
    omega

/-- The corrected concrete instance: 2500 characters, `maxLength = 1000`,
`overlap = 200` yield windows of 1000, 1000 and 900 characters (the third
window starts at offset 1600 = 2·800, not at 1800). -/
lemma chunkText_a2500 :
    ((chunkText (String.mk (List.replicate 2500 'A')) 1000 200 (by omega)).map
      (fun c => c.content.length)) = [1000, 1000, 900] := by
  have hov : (200 : Nat) < 1000 := by omega
  set T : List Char := List.replicate 2500 'A' with hT
  have hTlen : T.length = 2500 := by rw [hT, List.length_replicate]
  have h0 : (chunkTextRaw T 1000 200 hov)[0]? = some ((T.drop 0).take 1000) := by
    have := chunkGo_get? T 1000 200 hov 0 0 (by omega) (by omega)
    rw [chunkTextRaw]
    simpa using this
  have h1 : (chunkTextRaw T 1000 200 hov)[1]? = some ((T.drop 800).take 1000) := by
    have := chunkGo_get? T 1000 200 hov 1 0 (by omega)
      (by intro j hj; interval_cases j <;> omega)
    rw [chunkTextRaw]
    simpa using this
  have h2 : (chunkTextRaw T 1000 200 hov)[2]? = some ((T.drop 1600).take 1000) := by
    have := chunkGo_get? T 1000 200 hov 2 0 (by omega)
      (by intro j hj; interval_cases j <;> omega)
    rw [chunkTextRaw]
    have harith : (0 : Nat) + 2 * (1000 - 200) = 1600 := by norm_num
    rw [harith] at this
    exact this
  have h3 : (chunkTextRaw T 1000 200 hov)[3]? = none := by
    by_contra hno
    have := chunkGo_succ_exists T 1000 200 hov 2 0 (by
      rw [chunkTextRaw] at hno
      exact hno)
    omega
  have hraw : chunkTextRaw T 1000 200 hov =
      [(T.drop 0).take 1000, (T.drop 800).take 1000, (T.drop 1600).take 1000] := by
    apply List.ext_getElem?
    intro n
    match n with
    | 0 => rw [h0]; simp
    | 1 => rw [h1]; simp
    | 2 => rw [h2]; simp
    | n + 3 =>
      rw [List.getElem?_eq_none, List.getElem?_eq_none]
      · simp
      · have hle : (chunkTextRaw T 1000 200 hov).length ≤ 3 := by
          by_contra hgt
          rw [List.getElem?_eq_some_iff.mpr ⟨by omega, rfl⟩] at h3
          exact Option.noConfusion h3
        omega
  show ((chunkTextRaw T 1000 200 hov).mapIdx _).map _ = _
  rw [hraw]
  simp only [List.mapIdx_cons, List.map_cons, List.map_nil, asString_length,
    List.length_take, List.length_drop]
  rw [hTlen]
  norm_num

/-- C3, counterexample: on a 2500-character text with `maxLength = 1000` and
`overlap = 200`, `chunkText` does **not** produce windows of lengths
1000, 1000, 700 (the third window starts at 1600 and has 900 characters). -/
theorem claim3_counterexample :
    ¬ ((chunkText (String.mk (List.replicate 2500 'A')) 1000 200 (by omega)).map
      (fun c => c.content.length)) = [1000, 1000, 700] := by
  rw [chunkText_a2500]
  decide

/-- C3, amended: `chunkText` is sliding-window segmentation — window `k`
starts at offset `k * (maxLength - overlap)` and is the `maxLength`-character
slice there, every window except the last has exactly `maxLength`
characters, the last ends at the text's end — and on a 2500-character text
with `maxLength = 1000`, `overlap = 200` it yields exactly 3 chunks of
lengths 1000, 1000, **900**. -/
theorem claim3_amended :
    (∀ (text : String) (maxLength overlap : Nat) (hov : overlap < maxLength)
        (k : Nat) (c : DocumentChunk),
      (chunkText text maxLength overlap hov)[k]? = some c →
        c.content = ((text.data.drop (k * (maxLength - overlap))).take maxLength).asString ∧
        (¬ (chunkText text maxLength overlap hov)[k + 1]? = none →
          c.content.length = maxLength) ∧
        ((chunkText text maxLength overlap hov)[k + 1]? = none →
          k * (maxLength - overlap) + c.content.length = text.data.length)) ∧
    ((chunkText (String.mk (List.replicate 2500 'A')) 1000 200 (by omega)).map
      (fun c => c.content.length)) = [1000, 1000, 900] := by
  constructor
  · intro text maxLength overlap hov k c hc
    rw [chunkText, List.getElem?_mapIdx] at hc
    set raw := chunkTextRaw text.data maxLength overlap hov with hrawdef
    match hrw : raw[k]? with
    | none => rw [hrw] at hc; exact Option.noConfusion hc
    | some w =>
      rw [hrw] at hc
      simp only [Option.map_some'] at hc
      have hcw : c.content = w.asString := by
        have hcc := Option.some.inj hc
        rw [← hcc]
      have hwin := chunkTextRaw_get? text.data maxLength overlap hov k (by rw [hrw]; simp)
      rw [hrw] at hwin
      have hwval : w = (text.data.drop (k * (maxLength - overlap))).take maxLength :=
        Option.some_injective _ hwin
      have hsz := chunkTextRaw_window_sizes text.data maxLength overlap hov k w hrw
      have hnext : (chunkText text maxLength overlap hov)[k + 1]? = none ↔
          raw[k + 1]? = none := by
        rw [chunkText, List.getElem?_mapIdx, ← hrawdef]
        constructor
        · intro h
          exact Option.map_eq_none.mp h
        · intro h
          rw [h]
          rfl
      refine ⟨by rw [hcw, hwval], ?_, ?_⟩
      · intro h
        rw [hcw, asString_length]
        exact hsz.1 (fun hn => h (hnext.mpr hn))
      · intro h
        rw [hcw, asString_length]
        exact hsz.2 (hnext.mp h)
  · exact chunkText_a2500

/-- Witness for `claim3_amended` at `chunkText "abcd" 3 1`. -/
theorem claim3_witness :
    ((⟨"abc", { type := "text", section_ := "Chunk 1" }⟩ : DocumentChunk).content =
      (("abcd".data.drop (0 * (3 - 1))).take 3).asString) ∧
    (¬ (chunkText "abcd" 3 1 (by omega))[0 + 1]? = none →
      (⟨"abc", { type := "text", section_ := "Chunk 1" }⟩ : DocumentChunk).content.length = 3) ∧
    ((chunkText "abcd" 3 1 (by omega))[0 + 1]? = none →
      0 * (3 - 1) +
        (⟨"abc", { type := "text", section_ := "Chunk 1" }⟩ : DocumentChunk).content.length =
        "abcd".data.length) :=
  claim3_amended.1 "abcd" 3 1 (by omega) 0 _ (by
    simp only [chunkText, chunkTextRaw]
    rw [← chunkGo_eq_fuel _ 3 1 (by omega) 8 0 (by decide)]
    decide)

/-- C9: for non-empty text and `overlap < maxLength`, `chunkText` (a total
function here — the loop's termination is exactly the well-founded recursion
of `chunkGo`) emits at least one window, and every character position lies
in at least one emitted window. -/
theorem claim9_termination_coverage (text : String) (maxLength overlap : Nat)
    (hov : overlap < maxLength) (hne : text.data ≠ []) :
    chunkText text maxLength overlap hov ≠ [] ∧
    ∀ i, i < text.data.length →
      ∃ k c, (chunkText text maxLength overlap hov)[k]? = some c ∧
        k * (maxLength - overlap) ≤ i ∧
        i < k * (maxLength - overlap) + c.content.length := by
  have hpos : 0 < text.data.length := by
    cases hd : text.data with
    | nil => exact absurd hd hne
    | cons a l => simp
  constructor
  · rw [chunkText]
    rw [Ne, List.mapIdx_eq_nil_iff]
    rw [chunkTextRaw, chunkGo_unfold text.data maxLength overlap hov 0 hpos]
    simp
  · intro i hi
    obtain ⟨k, w, hw, hlo, hhi⟩ :=
      chunkGo_covers text.data maxLength overlap hov (text.data.length + 1) 0 i
        (by omega) (by omega) hi
    refine ⟨k, ⟨w.asString, { type := "text", section_ := s!"Chunk {k + 1}" }⟩, ?_, ?_, ?_⟩
    · rw [chunkText, List.getElem?_mapIdx, chunkTextRaw, hw]
      rfl
    · simpa using hlo
    · have : (w.asString).length = w.length := asString_length w
      simp only [this]
      simpa using hhi

/-- Witness for `claim9_termination_coverage` on the two-character text
`"ab"`. -/
theorem claim9_witness :
    chunkText "ab" 3 1 (by omega) ≠ [] ∧
    ∀ i, i < "ab".data.length →
      ∃ k c, (chunkText "ab" 3 1 (by omega))[k]? = some c ∧
        k * (3 - 1) ≤ i ∧ i < k * (3 - 1) + c.content.length :=
  claim9_termination_coverage "ab" 3 1 (by omega) (by decide)

/-- C4: `decomposeQuery` always returns a non-empty list; whenever the
upstream response fails to parse, parses to a non-list, or parses to an
empty list — and also when the upstream call itself fails — the result is
exactly the singleton `[query]`. -/
theorem claim4_decomposition_floor :
    ∀ (query : String) (upstream : Except UpstreamErr String)
      (parseJson : String → Option JsonVal),
      decomposeQuery query upstream parseJson ≠ [] ∧
      (∀ raw, upstream = .ok raw →
        (parseJson (trimStr (stripCodeFence (trimStr raw))) = none ∨
         parseJson (trimStr (stripCodeFence (trimStr raw))) = some .notArr ∨
         parseJson (trimStr (stripCodeFence (trimStr raw))) = some (.arr [])) →
        decomposeQuery query upstream parseJson = [query]) ∧
      (∀ e, upstream = .error e → decomposeQuery query upstream parseJson = [query]) := by
  intro query upstream parseJson
  refine ⟨?_, ?_, ?_⟩
  · match upstream with
    | .error e => simp [decomposeQuery]
    | .ok t =>
      simp only [decomposeQuery]
      split <;> simp_all
  · intro raw hup hcases
    subst hup
    simp only [decomposeQuery]
    rcases hcases with h | h | h <;> rw [h] <;> simp
  · intro e hup
    subst hup
    rfl

/-- Witness for `claim4_decomposition_floor`: a parser that always fails
forces the fallback `[query]`. -/
theorem claim4_witness :
    decomposeQuery "what is in my notes" (.ok "garbage !!") (fun _ => none) =
      ["what is in my notes"] :=
  (claim4_decomposition_floor "what is in my notes" (.ok "garbage !!")
    (fun _ => none)).2.1 "garbage !!" rfl (Or.inl rfl)

lemma retryGo_calls_le {α : Type} (fn : Nat → Except UpstreamErr α)
    (jitter : Nat → ℚ) (baseDelay : ℚ) :
    ∀ remaining i, (retryGo fn jitter baseDelay remaining i).calls ≤ remaining := by
  intro remaining
  induction remaining with
  | zero => intro i; rw [retryGo]
  | succ n ih =>
    intro i
    rw [retryGo]
    match fn i with
    | .ok a => simp
    | .error e =>
      simp only
      split
      · simp
      · split
        · simpa using ih (i + 1)
        · simp

/-- C6: `retryWithBackoff` with `maxRetries = 3` invokes the wrapped call at
most 3 times; a non-retryable first error propagates after a single call
with no delay; a non-retryable error after a retryable one propagates after
two calls with one delay `1000·2⁰ + jitter 0`; three retryable errors
exhaust the attempts, sleeping `1000·2⁰ + jitter 0` and `1000·2¹ + jitter 1`
and propagating the final error. -/
theorem claim6_retry_policy :
    ∀ (α : Type) (fn : Nat → Except UpstreamErr α) (jitter : Nat → ℚ),
      (retryWithBackoff fn jitter 3 1000).calls ≤ 3 ∧
      (∀ e, fn 0 = .error e → isRetryableStatus e = false →
        retryWithBackoff fn jitter 3 1000 = ⟨.error (.upstream e), 1, []⟩) ∧
      (∀ e0 e1, fn 0 = .error e0 → fn 1 = .error e1 →
        isRetryableStatus e0 = true → isRetryableStatus e1 = false →
        retryWithBackoff fn jitter 3 1000 =
          ⟨.error (.upstream e1), 2, [1000 * 2 ^ 0 + jitter 0]⟩) ∧
      (∀ e0 e1 e2, fn 0 = .error e0 → fn 1 = .error e1 → fn 2 = .error e2 →
        isRetryableStatus e0 = true → isRetryableStatus e1 = true →
        retryWithBackoff fn jitter 3 1000 =
          ⟨.error (.upstream e2), 3,
            [1000 * 2 ^ 0 + jitter 0, 1000 * 2 ^ 1 + jitter 1]⟩) := by
  intro α fn jitter
  refine ⟨retryGo_calls_le fn jitter 1000 3 0, ?_, ?_, ?_⟩
  · intro e h0 hnr
    rw [retryWithBackoff, retryGo, h0]
    simp [hnr]
  · intro e0 e1 h0 h1 hr0 hnr1
    rw [retryWithBackoff, retryGo, h0]
    simp only [hr0, if_true, if_neg (by omega : ¬ (2 : Nat) = 0)]
    rw [retryGo, h1]
    simp [hnr1]
  · intro e0 e1 e2 h0 h1 h2 hr0 hr1
    rw [retryWithBackoff, retryGo, h0]
    simp only [hr0, if_true, if_neg (by omega : ¬ (2 : Nat) = 0)]
    rw [retryGo, h1]
    simp only [hr1, if_true, if_neg (by omega : ¬ (1 : Nat) = 0)]
    rw [retryGo, h2]
    simp

/-- Witness for `claim6_retry_policy`: a call that always fails with
status 503 is invoked three times with delays 1000 and 2000 (zero jitter). -/
theorem claim6_witness :
    retryWithBackoff (fun _ => (.error ⟨some 503⟩ : Except UpstreamErr Nat))
      (fun _ => 0) 3 1000 =
      ⟨.error (.upstream ⟨some 503⟩), 3,
        [1000 * 2 ^ 0 + 0, 1000 * 2 ^ 1 + 0]⟩ :=
  (claim6_retry_policy Nat (fun _ => .error ⟨some 503⟩) (fun _ => 0)).2.2.2
    ⟨some 503⟩ ⟨some 503⟩ ⟨some 503⟩ rfl rfl rfl rfl rfl

/-- C8: `generateChatResponse` is total — its embedding returns a `String`
for every upstream outcome — and on upstream failure it returns the canned
apology selected by the error's status (503 / 429 / 400 / anything else),
the four texts being pairwise distinct. -/
theorem claim8_chat_fallbacks :
    ∀ (message : String) (context : ChatContext)
      (upstream : Except UpstreamErr String),
      (∀ t, upstream = .ok t → generateChatResponse message context upstream = t) ∧
      (∀ e, upstream = .error e →
        generateChatResponse message context upstream =
          (if e.status = some 503 then chatFallback503
           else if e.status = some 429 then chatFallback429
           else if e.status = some 400 then chatFallback400
           else chatFallbackGeneric)) ∧
      (chatFallback503 ≠ chatFallback429 ∧ chatFallback503 ≠ chatFallback400 ∧
       chatFallback503 ≠ chatFallbackGeneric ∧ chatFallback429 ≠ chatFallback400 ∧
       chatFallback429 ≠ chatFallbackGeneric ∧
       chatFallback400 ≠ chatFallbackGeneric) := by
  intro message context upstream
  refine ⟨?_, ?_, by refine ⟨?_, ?_, ?_, ?_, ?_, ?_⟩ <;> decide⟩
  · intro t h
    subst h
    rfl
  · intro e h
    subst h
    rfl

/-- Witness for `claim8_chat_fallbacks` at status 503. -/
theorem claim8_witness :
    generateChatResponse "hello" ⟨[], []⟩ (.error ⟨some 503⟩) =
      (if (⟨some 503⟩ : UpstreamErr).status = some 503 then chatFallback503
       else if (⟨some 503⟩ : UpstreamErr).status = some 429 then chatFallback429
       else if (⟨some 503⟩ : UpstreamErr).status = some 400 then chatFallback400
       else chatFallbackGeneric) :=
  (claim8_chat_fallbacks "hello" ⟨[], []⟩ (.error ⟨some 503⟩)).2.1 ⟨some 503⟩ rfl

lemma getD_set_ite {α : Type} (v : List α) (i j : Nat) (a d : α)
    (hi : i < v.length) :
    (v.set i a).getD j d = if i = j then a else v.getD j d := by
  rw [List.getD_eq_getElem?_getD, List.getD_eq_getElem?_getD, List.getElem?_set]
  by_cases h : i = j
  · subst h
    simp [hi]
  · simp [h]

/-- The accumulation loop, computed entrywise: after folding the indexed
character list `ps` over `v`, entry `j` holds `v[j]` plus the sum of the
contributions of the characters targeting index `j`. -/
lemma accumulate_entrywise {α : Type} [Field α] (sin : α → α) :
    ∀ (ps : List (Nat × Nat)) (v : List α), v.length = 384 →
      ps.foldl (fun embedding p =>
          embedding.set ((p.2 + p.1) % 384)
            (embedding.getD ((p.2 + p.1) % 384) 0 + sinContribution sin p.2)) v =
      (List.range 384).map (fun j =>
        v.getD j 0 +
          ((ps.filter (fun p => (p.2 + p.1) % 384 = j)).map
            (fun p => sinContribution sin p.2)).sum) := by
  intro ps
  induction ps with
  | nil =>
    intro v hv
    simp only [List.foldl_nil, List.filter_nil, List.map_nil, List.sum_nil, add_zero]
    apply List.ext_getElem?
    intro n
    rcases lt_or_le n 384 with hn | hn
    · rw [List.getElem?_map, List.getElem?_range hn,
        List.getElem?_eq_getElem (show n < v.length by omega)]
      simp [List.getD_eq_getElem?_getD,
        List.getElem?_eq_getElem (show n < v.length by omega)]
    · rw [List.getElem?_eq_none (by omega),
        List.getElem?_eq_none (by simp only [List.length_map, List.length_range]; omega)]
  | cons p ps ih =>
    intro v hv
    rw [List.foldl_cons, ih _ (by simp [hv])]
    apply List.map_congr_left
    intro j hj
    have hj384 : j < 384 := List.mem_range.mp hj
    have hidx : (p.2 + p.1) % 384 < v.length := by
      rw [hv]
      exact Nat.mod_lt _ (by omega)
    rw [getD_set_ite _ _ _ _ _ hidx, List.filter_cons]
    by_cases hcase : (p.2 + p.1) % 384 = j
    · rw [if_pos hcase,
        if_pos (show decide ((p.2 + p.1) % 384 = j) = true by simp [hcase])]
      simp only [List.map_cons, List.sum_cons]
      rw [hcase, add_assoc]
    · rw [if_neg hcase,
        if_neg (show ¬ decide ((p.2 + p.1) % 384 = j) = true by simpa using hcase)]

/-- C5: the source's `generateDeterministicEmbedding` coincides with the
spec's reference definition for every input, over any linear ordered field
and any abstract `sin`/`sqrt` (the embedding of IEEE `Math.sin`/`Math.sqrt`
and float arithmetic). -/
theorem claim5_fallback_embedding (α : Type) [Field α] [LinearOrder α]
    (sin sqrt : α → α) (codes : List Nat) :
    generateDeterministicEmbedding sin sqrt codes =
      specDeterministicEmbedding sin sqrt codes := by
  rw [generateDeterministicEmbedding, specDeterministicEmbedding]
  congr 1
  show codes.enum.foldl (fun embedding p =>
      embedding.set ((p.2 + p.1) % 384)
        (embedding.getD ((p.2 + p.1) % 384) 0 + sinContribution sin p.2))
    (List.replicate 384 (0 : α)) = _
  rw [accumulate_entrywise sin codes.enum (List.replicate 384 0)
    (by rw [List.length_replicate])]
  apply List.map_congr_left
  intro j hj
  have hj384 : j < 384 := List.mem_range.mp hj
  rw [List.getD_eq_getElem?_getD, List.getElem?_replicate_of_lt hj384]
  simp

lemma docKeyEq_iff (a b : SearchRow) :
    docKeyEq a b = true ↔ a.documentId = b.documentId ∧ a.content = b.content := by
  simp [docKeyEq]

lemma docKeyEq_congr {x d : SearchRow} (h : docKeyEq x d = true) (z : SearchRow) :
    docKeyEq z x = docKeyEq z d := by
  obtain ⟨h1, h2⟩ := (docKeyEq_iff x d).mp h
  simp [docKeyEq, h1, h2]

lemma findIdx_congr {β : Type} (p q : β → Bool) (h : ∀ x, p x = q x) :
    ∀ l : List β, l.findIdx p = l.findIdx q := by
  intro l
  induction l with
  | nil => rfl
  | cons a l ih => rw [List.findIdx_cons, List.findIdx_cons, h a, ih]

/-- C7: after concatenating the per-sub-query retrieval results, the chat
route's merge contains, for each chunk key `(document_id, content)` present
in the concatenation, exactly one row with that key. -/
theorem claim7_dedup (queries : List String)
    (searchFn : String → List SearchRow) (d : SearchRow)
    (hd : d ∈ queries.flatMap searchFn) :
    (chatRetrieveContext queries searchFn).countP (fun x => docKeyEq x d) = 1 := by
  rw [chatRetrieveContext]
  set l := queries.flatMap searchFn with hl
  rw [dedupByDocIdContent]
  rw [List.countP_map, List.countP_filter]
  have hex : ∃ x ∈ l, docKeyEq x d := ⟨d, hd, (docKeyEq_iff d d).mpr ⟨rfl, rfl⟩⟩
  have hi0 : l.findIdx (fun x => docKeyEq x d) < l.length :=
    List.findIdx_lt_length_of_exists hex
  set i0 := l.findIdx (fun x => docKeyEq x d) with hi0def
  have hw0 : l[l.findIdx (fun x => docKeyEq x d)]? = some (l[i0]) := by
    rw [← hi0def]
    exact List.getElem?_eq_getElem hi0
  have hp0' := List.findIdx_of_getElem?_eq_some hw0
  have hp0 : docKeyEq l[i0] d = true := hp0'
  have hcongr : ∀ q ∈ l.enum,
      (((fun x => docKeyEq x d) ∘ Prod.snd) q &&
        (l.findIdx (fun x => docKeyEq x q.2) == q.1)) = true ↔
      decide (q = (i0, l[i0])) = true := by
    intro q hq
    have hmem := List.mem_enum_iff_getElem?.mp hq
    obtain ⟨i, x⟩ := q
    simp only at hmem
    have hix : l[i]? = some x := hmem
    have hilt : i < l.length := by
      by_contra hno
      rw [List.getElem?_eq_none (by omega)] at hix
      exact Option.noConfusion hix
    have hxval : x = l[i] := by
      rw [List.getElem?_eq_getElem hilt] at hix
      exact (Option.some.inj hix).symm
    rw [decide_eq_true_eq]
    constructor
    · intro hr
      rw [Bool.and_eq_true] at hr
      obtain ⟨hkey, hfind⟩ := hr
      have hkey' : docKeyEq x d = true := hkey
      have : l.findIdx (fun z => docKeyEq z x) = i0 := by
        rw [findIdx_congr (fun z => docKeyEq z x) (fun z => docKeyEq z d)
          (docKeyEq_congr hkey') l]
      rw [this] at hfind
      have hieq : i0 = i := Nat.beq_eq_true_eq _ _ |>.mp hfind
      subst hieq
      rw [hxval]
    · intro hq
      obtain ⟨hq1, hq2⟩ := Prod.mk.injEq .. |>.mp hq
      subst hq1
      subst hq2
      rw [Bool.and_eq_true]
      refine ⟨hp0, ?_⟩
      have : l.findIdx (fun z => docKeyEq z l[i0]) = i0 := by
        rw [findIdx_congr (fun z => docKeyEq z l[i0]) (fun z => docKeyEq z d)
          (docKeyEq_congr hp0) l]
      rw [this]
      exact Nat.beq_eq_true_eq _ _ |>.mpr rfl
  rw [List.countP_congr hcongr]
  have hnodup : (l.enum).Nodup :=
    List.Nodup.of_map Prod.fst (List.nodup_enum_map_fst l)
  have hmem : (i0, l[i0]) ∈ l.enum := by
    rw [List.mem_enum_iff_getElem?]
    exact List.getElem?_eq_getElem hi0
  calc (l.enum).countP (fun q => decide (q = (i0, l[i0])))
      = @List.count _ instBEqOfDecidableEq (i0, l[i0]) l.enum := by
        apply List.countP_congr
        intro a _
        show decide (a = (i0, l[i0])) = true ↔ decide (a = (i0, l[i0])) = true
        exact Iff.rfl
    _ = 1 := List.count_eq_one_of_mem hnodup hmem

/-- Witness for `claim7_dedup`: two sub-queries returning the same chunk
leave exactly one copy. -/
theorem claim7_witness :
    (chatRetrieveContext ["a", "b"]
      (fun _ => [⟨1, 10, "x", 0, (1 : ℚ) / 2⟩])).countP
      (fun x => docKeyEq x ⟨1, 10, "x", 0, (1 : ℚ) / 2⟩) = 1 :=
  claim7_dedup ["a", "b"] (fun _ => [⟨1, 10, "x", 0, (1 : ℚ) / 2⟩])
    ⟨1, 10, "x", 0, (1 : ℚ) / 2⟩ (by simp)

lemma c2_vector_eval : vectorSearch c2db 7 0 5 =
    [⟨1, 10, "alpha beta", 0, (9 : ℚ) / 10⟩] := by
  rw [c2db, vectorSearch]
  norm_num [List.filter_cons]

lemma c2_keyword_eval : keywordSearch c2db 7 5 (some "beta") =
    [⟨1, 10, "alpha beta", 0, (7 : ℚ) / 10⟩] := by
  rw [c2db, keywordSearch]
  norm_num [List.filter_cons, show ilikeContains "alpha beta" "beta" = true from by decide,
    show ¬ ("beta" = "") from by decide]

lemma c2_code_eval : search_documents c2db 7 0 5 (some "beta") =
    [⟨1, 10, "alpha beta", 0, (9 : ℚ) / 10⟩, ⟨1, 10, "alpha beta", 0, (7 : ℚ) / 10⟩] := by
  rw [search_documents, c2_vector_eval, c2_keyword_eval]
  rw [show [(⟨1, 10, "alpha beta", 0, (9 : ℚ) / 10⟩ : SearchRow)] ++
      [⟨1, 10, "alpha beta", 0, (7 : ℚ) / 10⟩] =
      [⟨1, 10, "alpha beta", 0, (9 : ℚ) / 10⟩, ⟨1, 10, "alpha beta", 0, (7 : ℚ) / 10⟩]
    from rfl]
  rw [List.dedup_eq_self.mpr (by norm_num [List.nodup_cons, SearchRow.mk.injEq])]
  rw [List.mergeSort_of_sorted (by
    constructor
    · intro b hb
      rw [List.mem_singleton] at hb
      subst hb
      norm_num
    · exact List.pairwise_singleton _ _)]
  rfl

lemma c2_spec_eval : specHybridMerge c2db 7 0 5 (some "beta") =
    [⟨1, 10, "alpha beta", 0, (9 : ℚ) / 10⟩] := by
  rw [specHybridMerge, c2_vector_eval, c2_keyword_eval]
  simp only [List.cons_append, List.nil_append, List.foldl_cons, List.foldl_nil]
  norm_num

/-- C2, counterexample: with one stored chunk matching both the vector
side (similarity 9/10) and the keyword side (similarity 7/10), the SQL
`union` keeps **both** rows — the chunk appears twice, once per score —
while the claimed union-by-chunk-identity with the higher score would keep
a single row. -/
theorem claim2_counterexample :
    (search_documents c2db 7 0 5 (some "beta")).length = 2 ∧
    (specHybridMerge c2db 7 0 5 (some "beta")).length = 1 ∧
    search_documents c2db 7 0 5 (some "beta") ≠
      specHybridMerge c2db 7 0 5 (some "beta") := by
  rw [c2_code_eval, c2_spec_eval]
  refine ⟨rfl, rfl, ?_⟩
  intro h
  exact List.cons_ne_nil _ _ (List.tail_eq_of_cons_eq h)

/-- C2, amended: `search_documents` returns the *row-level distinct* union
of the vector set and the keyword set — a chunk in both sets with two
different scores contributes two rows, one per score — sorted by similarity
descending and truncated to `match_count`; when no truncation occurs, every
row of either set (with its own score) appears in the output. -/
theorem claim2_amended (db : List StoredChunk) (userId : Nat)
    (matchThreshold : ℚ) (matchCount : Nat) (keywordQuery : Option String) :
    (search_documents db userId matchThreshold matchCount keywordQuery).Pairwise
      (fun a b => b.similarity ≤ a.similarity) ∧
    (search_documents db userId matchThreshold matchCount keywordQuery).length ≤
      matchCount ∧
    (search_documents db userId matchThreshold matchCount keywordQuery).Nodup ∧
    (∀ r ∈ search_documents db userId matchThreshold matchCount keywordQuery,
      r ∈ vectorSearch db userId matchThreshold matchCount ∨
      r ∈ keywordSearch db userId matchCount keywordQuery) ∧
    ((vectorSearch db userId matchThreshold matchCount ++
        keywordSearch db userId matchCount keywordQuery).dedup.length ≤ matchCount →
      ∀ r, (r ∈ vectorSearch db userId matchThreshold matchCount ∨
            r ∈ keywordSearch db userId matchCount keywordQuery) →
        r ∈ search_documents db userId matchThreshold matchCount keywordQuery) := by
  have htrans : ∀ a b c : SearchRow,
      decide (b.similarity ≤ a.similarity) = true →
      decide (c.similarity ≤ b.similarity) = true →
      decide (c.similarity ≤ a.similarity) = true := by
    intro a b c hab hbc
    rw [decide_eq_true_eq] at *
    exact le_trans hbc hab
  have htotal : ∀ a b : SearchRow,
      (decide (b.similarity ≤ a.similarity) ||
        decide (a.similarity ≤ b.similarity)) = true := by
    intro a b
    rcases le_total b.similarity a.similarity with h | h <;> simp [h]
  refine ⟨?_, ?_, ?_, ?_, ?_⟩
  · rw [search_documents]
    have hP := List.sorted_mergeSort htrans htotal
      ((vectorSearch db userId matchThreshold matchCount ++
        keywordSearch db userId matchCount keywordQuery).dedup)
    have hPt := hP.sublist (List.take_sublist matchCount _)
    exact hPt.imp (fun h => of_decide_eq_true h)
  · rw [search_documents, List.length_take]
    omega
  · rw [search_documents]
    have hnd : ((vectorSearch db userId matchThreshold matchCount ++
        keywordSearch db userId matchCount keywordQuery).dedup).Nodup :=
      List.nodup_dedup _
    have hnd2 := ((List.mergeSort_perm _
        (fun a b => decide (b.similarity ≤ a.similarity))).nodup_iff).mpr hnd
    exact hnd2.sublist (List.take_sublist matchCount _)
  · intro r hr
    rw [search_documents] at hr
    have hr2 := List.mem_of_mem_take hr
    rw [List.mem_mergeSort, List.mem_dedup] at hr2
    exact List.mem_append.mp hr2
  · intro hlen r hr
    rw [search_documents]
    have hmem : r ∈ (vectorSearch db userId matchThreshold matchCount ++
        keywordSearch db userId matchCount keywordQuery).dedup := by
      rw [List.mem_dedup]
      exact List.mem_append.mpr hr
    have hmem2 : r ∈ (vectorSearch db userId matchThreshold matchCount ++
        keywordSearch db userId matchCount keywordQuery).dedup.mergeSort
        (fun a b => decide (b.similarity ≤ a.similarity)) := by
      rw [List.mem_mergeSort]
      exact hmem
    rw [List.take_of_length_le (by rw [List.length_mergeSort]; exact hlen)]
    exact hmem2

/-- Witness for `claim2_amended`: the duplicated chunk's vector-score row is
in the output, and the no-truncation direction puts the keyword-score row in
the output as well. -/
theorem claim2_witness :
    (⟨1, 10, "alpha beta", 0, (9 : ℚ) / 10⟩ : SearchRow) ∈
        vectorSearch c2db 7 0 5 ∨
      (⟨1, 10, "alpha beta", 0, (9 : ℚ) / 10⟩ : SearchRow) ∈
        keywordSearch c2db 7 5 (some "beta") :=
  (claim2_amended c2db 7 0 5 (some "beta")).2.2.2.1
    ⟨1, 10, "alpha beta", 0, (9 : ℚ) / 10⟩
    (by rw [c2_code_eval]; exact List.mem_cons_self _ _)

lemma extractTextFromPDF_ne_nil (env : ExtractEnv) (fileName : String) :
    extractTextFromPDF env fileName ≠ [] := by
  unfold extractTextFromPDF
  split
  · simp
  · rename_i text heq
    split
    · simp
    · by_cases hchunks : List.filter (fun c => !(trimChars c).isEmpty)
          (splitOnBlankLine text.data []) = []
      · simp [hchunks]
      · simp [hchunks, List.mapIdx_eq_nil_iff]

lemma extractTextFromPDF_failed (env : ExtractEnv) (fileName e : String)
    (hm : env.mammoth = .error e) (hf : env.fetchOk = true) :
    extractTextFromPDF env fileName =
      [{ content := "PDF file: " ++ fileName ++ " - Content extraction failed. This might be a scanned PDF that requires OCR (Optical Character Recognition) to extract text. Error: " ++ e
         metadata := { type := "pdf", section_ := "Document", errorMsg := some e,
                       filename := some fileName,
                       processingStatus := some "failed" } }] := by
  unfold extractTextFromPDF
  have hdo : (do let _ ← fetchFileContent env
                 env.mammoth : Except String String) = .error e := by
    rw [fetchFileContent, hf]
    simp only [if_true]
    exact hm
  rw [hdo]

lemma extractTextFromDOCX_failed (env : ExtractEnv) (fileName e : String)
    (hm : env.mammoth = .error e) (hf : env.fetchOk = true) :
    extractTextFromDOCX env fileName = .error e := by
  unfold extractTextFromDOCX
  have hfetch : fetchFileContent env = .ok () := by
    rw [fetchFileContent, hf]
    simp only [if_true]
  rw [hfetch, hm]
  rfl

/-- C1, counterexample: a corrupt DOCX makes the dispatcher **raise** a
wrapped error rather than produce a diagnostic chunk, and a whitespace-only
DOCX yields **zero** chunks. -/
theorem claim1_counterexample :
    extractTextFromFile envCorrupt "files/doc.docx" docxMime =
        .error "Failed to extract text from doc.docx: corrupt docx" ∧
    extractTextFromFile { envCorrupt with mammoth := .ok "   " } "files/doc.docx"
        docxMime = .ok [] :=
  ⟨by decide, by decide⟩

/-- C1, amended: only the PDF extractor is total in the claimed sense — it
always returns at least one chunk, and on a thrown extraction error it
returns exactly one diagnostic chunk marked `processingStatus: "failed"` —
whereas the DOCX extractor propagates the same error past the dispatcher,
which rethrows it wrapped in `Failed to extract text from …`. -/
theorem claim1_amended :
    (∀ (env : ExtractEnv) (fileUrl : String),
      ∃ cs, extractTextFromFile env fileUrl "application/pdf" = .ok cs ∧ cs ≠ []) ∧
    (∀ (env : ExtractEnv) (fileUrl : String) (e : String),
      env.mammoth = .error e → env.fetchOk = true →
      extractTextFromFile env fileUrl "application/pdf" =
        .ok [{ content := "PDF file: " ++ fileNameOf fileUrl ++ " - Content extraction failed. This might be a scanned PDF that requires OCR (Optical Character Recognition) to extract text. Error: " ++ e
               metadata := { type := "pdf", section_ := "Document", errorMsg := some e,
                             filename := some (fileNameOf fileUrl),
                             processingStatus := some "failed" } }] ∧
      extractTextFromFile env fileUrl docxMime =
        .error ("Failed to extract text from " ++ fileNameOf fileUrl ++ ": " ++ e)) := by
  constructor
  · intro env fileUrl
    refine ⟨extractTextFromPDF env (fileNameOf fileUrl), rfl, ?_⟩
    exact extractTextFromPDF_ne_nil env (fileNameOf fileUrl)
  · intro env fileUrl e hm hf
    constructor
    · calc extractTextFromFile env fileUrl "application/pdf"
          = Except.ok (extractTextFromPDF env (fileNameOf fileUrl)) := rfl
        _ = _ := by rw [extractTextFromPDF_failed env (fileNameOf fileUrl) e hm hf]
    · calc extractTextFromFile env fileUrl docxMime
          = (match extractTextFromDOCX env (fileNameOf fileUrl) with
             | .ok chunks => Except.ok chunks
             | .error e2 =>
                Except.error ("Failed to extract text from " ++ fileNameOf fileUrl ++
                  ": " ++ e2)) := rfl
        _ = _ := by rw [extractTextFromDOCX_failed env (fileNameOf fileUrl) e hm hf]

/-- Witness for `claim1_amended` on the corrupt-DOCX environment. -/
theorem claim1_witness :
    extractTextFromFile envCorrupt "files/doc.docx" "application/pdf" =
      .ok [{ content := "PDF file: " ++ fileNameOf "files/doc.docx" ++ " - Content extraction failed. This might be a scanned PDF that requires OCR (Optical Character Recognition) to extract text. Error: " ++ "corrupt docx"
             metadata := { type := "pdf", section_ := "Document",
                           errorMsg := some "corrupt docx",
                           filename := some (fileNameOf "files/doc.docx"),
                           processingStatus := some "failed" } }] ∧
    extractTextFromFile envCorrupt "files/doc.docx" docxMime =
      .error ("Failed to extract text from " ++ fileNameOf "files/doc.docx" ++
        ": " ++ "corrupt docx") :=
  claim1_amended.2 envCorrupt "files/doc.docx" "corrupt docx" rfl rfl

lemma c10_mergeSort_eval :
    c10rows.mergeSort (fun a b => decide (b.docCreatedAt ≤ a.docCreatedAt)) =
      c10rows.reverse := by
  have htrans : ∀ a b c : EmbeddingRow,
      decide (b.docCreatedAt ≤ a.docCreatedAt) = true →
      decide (c.docCreatedAt ≤ b.docCreatedAt) = true →
      decide (c.docCreatedAt ≤ a.docCreatedAt) = true := by
    intro a b c hab hbc
    rw [decide_eq_true_eq] at *
    omega
  have htotal : ∀ a b : EmbeddingRow,
      (decide (b.docCreatedAt ≤ a.docCreatedAt) ||
        decide (a.docCreatedAt ≤ b.docCreatedAt)) = true := by
    intro a b
    rcases Nat.le_total b.docCreatedAt a.docCreatedAt with h | h <;> simp [h]
  have hanti : ∀ a ∈ c10rows, ∀ b ∈ c10rows.reverse,
      decide (b.docCreatedAt ≤ a.docCreatedAt) = true →
      decide (a.docCreatedAt ≤ b.docCreatedAt) = true → a = b := by decide
  apply List.Perm.eq_of_sorted
  · intro a b ha hb
    exact hanti a (List.mem_mergeSort.mp ha) b hb
  · exact List.sorted_mergeSort htrans htotal c10rows
  · decide
  · exact (List.mergeSort_perm c10rows _).trans (List.reverse_perm c10rows).symm

/-- C10: when the hybrid RPC resolves with an error, `searchSimilarDocuments`
returns the preliminary per-user check's rows — at most 5 in storage order,
each with mock similarity 0.5, regardless of `limit` — while the
exception-path fallback returns up to `limit` rows ordered by the parent
document's `created_at` descending; on six stored rows and `limit = 100` the
two paths return ids 1..5 (storage order, not recency) and 6..1. -/
theorem claim10_degraded_fallbacks :
    (∀ (env : SearchEnv) (limit : Nat),
      searchSimilarDocuments { env with tryThrows := false, rpc := .rpcError } limit =
        if env.checkError then [] else (env.userRows.take 5).map mockRow) ∧
    (∀ (env : SearchEnv) (limit : Nat),
      (searchSimilarDocuments { env with tryThrows := false, rpc := .rpcError }
        limit).length ≤ 5) ∧
    (∀ (env : SearchEnv) (limit : Nat),
      ∀ r ∈ searchSimilarDocuments { env with tryThrows := false, rpc := .rpcError }
        limit, r.similarity = 1 / 2) ∧
    (∀ (env : SearchEnv) (limit : Nat),
      searchSimilarDocuments { env with tryThrows := true, recentError := false } limit =
        ((env.userRows.mergeSort fun a b =>
          decide (b.docCreatedAt ≤ a.docCreatedAt)).take limit).map mockRow ∧
      searchSimilarDocuments { env with tryThrows := true, recentError := true }
        limit = []) ∧
    ((searchSimilarDocuments c10env 100).map (fun r => r.id) = [1, 2, 3, 4, 5] ∧
     (searchSimilarDocuments { c10env with tryThrows := true } 100).map
       (fun r => r.id) = [6, 5, 4, 3, 2, 1]) := by
  have herr : ∀ (env : SearchEnv) (limit : Nat),
      searchSimilarDocuments { env with tryThrows := false, rpc := .rpcError } limit =
        if env.checkError then [] else (env.userRows.take 5).map mockRow := by
    intro env limit
    by_cases hc : env.checkError <;> simp [searchSimilarDocuments, hc]
  refine ⟨herr, ?_, ?_, ?_, ?_, ?_⟩
  · intro env limit
    rw [herr env limit]
    by_cases hc : env.checkError
    · simp [hc]
    · rw [if_neg hc]
      simp only [List.length_map, List.length_take]
      omega
  · intro env limit r hr
    rw [herr env limit] at hr
    by_cases hc : env.checkError
    · rw [if_pos hc] at hr
      exact absurd hr (List.not_mem_nil r)
    · rw [if_neg hc] at hr
      obtain ⟨r0, _, hr0⟩ := List.mem_map.mp hr
      rw [← hr0]
      rfl
  · intro env limit
    exact ⟨rfl, rfl⟩
  · rfl
  · have h1 : searchSimilarDocuments { c10env with tryThrows := true } 100 =
        ((c10rows.mergeSort fun a b =>
          decide (b.docCreatedAt ≤ a.docCreatedAt)).take 100).map mockRow := rfl
    rw [h1, c10_mergeSort_eval]
    rfl

/-- Witness for `claim10_degraded_fallbacks`: the first fallback row of the
RPC-error path carries mock similarity 0.5. -/
theorem claim10_witness :
    (mockRow ⟨1, 1, "", 0, 1⟩).similarity = 1 / 2 :=
  (claim10_degraded_fallbacks).2.2.1 c10env 100 (mockRow ⟨1, 1, "", 0, 1⟩)
    (by
      have h0 : searchSimilarDocuments
          { c10env with tryThrows := false, rpc := .rpcError } 100 =
          (c10rows.take 5).map mockRow := rfl
      rw [h0]
      exact List.mem_map_of_mem mockRow (by decide))
